import Mathlib

/-!
Shallow embedding of the Google Workspace OAuth core of `clawdbot`
(`src/google/auth.ts`, `src/google/types.ts`, and the agent tools'
`resolveGoogleAccessToken`), together with theorems settling the
specification claims about it.

Conventions:
* JavaScript strings are Lean `String`s (we work on `List Char` where
  structural recursion is convenient).
* `process.env.X` is an `Option String`; JavaScript truthiness of an
  environment variable means "present and non-empty".
* Fallible async functions become pure functions returning `Except`,
  with the network responses they would receive passed in as inputs.
-/

namespace Clawdbot

/-- `startsWithL hay pat`: `pat` is a leading segment of `hay`
(the `List Char` analogue of JavaScript `String.startsWith`). -/
def startsWithL : List Char → List Char → Bool
  | _, [] => true
  | [], _ :: _ => false
  | a :: as, b :: bs => a == b && startsWithL as bs

/-- `hasSub pat hay`: `pat` occurs contiguously somewhere in `hay`. -/
def hasSub (pat : List Char) : List Char → Bool
  | [] => startsWithL [] pat
  | c :: cs => startsWithL (c :: cs) pat || hasSub pat cs

/-- JavaScript `s.includes(pat)`. -/
def strContains (s pat : String) : Bool := hasSub pat.data s.data

/-- JavaScript `s.toLowerCase()` (ASCII-faithful). -/
def lowerStr (s : String) : String := ⟨s.data.map Char.toLower⟩

/-- JavaScript truthiness of an environment-variable read:
`undefined` and the empty string are falsy. -/
def envTruthy : Option String → Bool
  | none => false
  | some s => !s.isEmpty

/-- The process state observed by the environment probe:
`process.platform`, the environment variables it reads, and the result of
`readFileSync("/proc/version")` (`none` when the read throws). -/
structure Env where
  platform : String
  sshClient : Option String
  sshTty : Option String
  sshConnection : Option String
  remoteContainers : Option String
  codespaces : Option String
  display : Option String
  waylandDisplay : Option String
  procVersion : Option String

/-- `isWSL` from `src/google/auth.ts`: Linux platform and
`/proc/version` (lowercased) contains `"microsoft"` or `"wsl"`. -/
def isWSL (e : Env) : Bool :=
  if e.platform != "linux" then false
  else
    match e.procVersion with
    | none => false
    | some v =>
        strContains (lowerStr v) "microsoft" || strContains (lowerStr v) "wsl"

/-- `isWSL2` from `src/google/auth.ts`: `isWSL` and `/proc/version`
(lowercased) contains `"wsl2"` or `"microsoft-standard"`. -/
def isWSL2 (e : Env) : Bool :=
  if !isWSL e then false
  else
    match e.procVersion with
    | none => false
    | some v =>
        strContains (lowerStr v) "wsl2" ||
          strContains (lowerStr v) "microsoft-standard"

/-- `isRemoteEnvironment` from `src/google/auth.ts`. -/
def isRemoteEnvironment (e : Env) : Bool :=
  if envTruthy e.sshClient || envTruthy e.sshTty || envTruthy e.sshConnection
  then true
  else if envTruthy e.remoteContainers || envTruthy e.codespaces then true
  else if e.platform == "linux" && !envTruthy e.display &&
      !envTruthy e.waylandDisplay && !isWSL e then true
  else false

/-- `shouldUseManualOAuthFlow` from `src/google/auth.ts`. -/
def shouldUseManualOAuthFlow (e : Env) : Bool :=
  isWSL2 e || isRemoteEnvironment e

/-- Modelled from the spec: `isContainerish()` — true if any of the
remote/session environment markers (SSH session variables, container /
cloud-IDE markers) are present. -/
def isContainerish (e : Env) : Bool :=
  envTruthy e.sshClient || envTruthy e.sshTty || envTruthy e.sshConnection ||
    envTruthy e.remoteContainers || envTruthy e.codespaces

/-- Modelled from the spec: `isHeadlessLinux()` — Linux platform, no
graphical display markers, and not the Linux-on-Windows compatibility
layer. -/
def isHeadlessLinux (e : Env) : Bool :=
  e.platform == "linux" && !envTruthy e.display &&
    !envTruthy e.waylandDisplay && !isWSL e

/-- Modelled from the spec: `isLinuxCompatLayerGen2()` — the gen-2
Linux-on-Windows compatibility layer, detected by known substrings of the
kernel-version string. -/
def isLinuxCompatLayerGen2 (e : Env) : Bool :=
  e.platform == "linux" &&
    (match e.procVersion with
     | none => false
     | some v =>
         strContains (lowerStr v) "wsl2" ||
           strContains (lowerStr v) "microsoft-standard")

section ProbeLemmas

lemma startsWithL_append_of (l p q : List Char)
    (h : startsWithL l (p ++ q) = true) : startsWithL l p = true := by
  induction p generalizing l with
  | nil => cases l <;> rfl
  | cons b bs ih =>
      cases l with
      | nil => simp [startsWithL] at h
      | cons a as =>
          simp only [List.cons_append, startsWithL, Bool.and_eq_true] at h ⊢
          exact ⟨h.1, ih as h.2⟩

lemma hasSub_of_append (p q l : List Char)
    (h : hasSub (p ++ q) l = true) : hasSub p l = true := by
  induction l with
  | nil =>
      cases p with
      | nil => rfl
      | cons b bs => simp [hasSub, startsWithL] at h
  | cons c cs ih =>
      simp only [hasSub, Bool.or_eq_true] at h ⊢
      rcases h with h | h
      · exact Or.inl (startsWithL_append_of _ _ _ h)
      · exact Or.inr (ih h)

/-- A string containing `"wsl2"` contains `"wsl"`. -/
lemma contains_wsl_of_wsl2 (v : String)
    (h : strContains v "wsl2" = true) : strContains v "wsl" = true :=
  hasSub_of_append ("wsl".data) ("2".data) _ h

/-- A string containing `"microsoft-standard"` contains `"microsoft"`. -/
lemma contains_ms_of_msstd (v : String)
    (h : strContains v "microsoft-standard" = true) :
    strContains v "microsoft" = true :=
  hasSub_of_append ("microsoft".data) ("-standard".data) _ h

/-- `isWSL2` coincides with the spec's gen-2 compat-layer predicate. -/
lemma isWSL2_eq_gen2 (e : Env) : isWSL2 e = isLinuxCompatLayerGen2 e := by
  cases hp : (e.platform == "linux") with
  | false =>
      have hp' : (e.platform != "linux") = true := by simp [bne, hp]
      simp [isWSL2, isWSL, isLinuxCompatLayerGen2, hp, hp']
  | true =>
      have hp' : (e.platform != "linux") = false := by simp [bne, hp]
      cases hv : e.procVersion with
      | none => simp [isWSL2, isWSL, isLinuxCompatLayerGen2, hp, hp', hv]
      | some v =>
          simp only [isWSL2, isWSL, isLinuxCompatLayerGen2, hp, hp', hv,
            Bool.true_and, if_false, Bool.not_eq_true']
          cases hg : (strContains (lowerStr v) "wsl2" ||
              strContains (lowerStr v) "microsoft-standard") with
          | false => simp [hg]
          | true =>
              have hbase : (strContains (lowerStr v) "microsoft" ||
                  strContains (lowerStr v) "wsl") = true := by
                rcases Bool.or_eq_true _ _ |>.mp hg with h1 | h1
                · exact Bool.or_eq_true _ _ |>.mpr
                    (Or.inr (contains_wsl_of_wsl2 _ h1))
                · exact Bool.or_eq_true _ _ |>.mpr
                    (Or.inl (contains_ms_of_msstd _ h1))
              simp [hbase, hg]

end ProbeLemmas

/-!  URL and query-string model (WHATWG `URL` / `URLSearchParams` as used
by the source: query parsing, percent decoding, and the
`application/x-www-form-urlencoded` serialization of `URLSearchParams`). -/

/-- Characters `URLSearchParams` serializes verbatim
(`A-Z a-z 0-9 * - . _`); everything else is `'+'` (space) or
percent-encoded. -/
def unreservedChar (c : Char) : Bool :=
  c.isAlpha || c.isDigit || c == '*' || c == '-' || c == '.' || c == '_'

/-- Uppercase hex digits. -/
def hexDigits : List Char := "0123456789ABCDEF".data

/-- Hex digit for `n % 16` (uppercase, as percent-encoding emits). -/
def hexDigitChar (n : Nat) : Char := hexDigits.getD (n % 16) '0'

/-- UTF-8 bytes of a character. -/
def utf8Bytes (c : Char) : List Nat :=
  let n := c.toNat
  if n < 0x80 then [n]
  else if n < 0x800 then [0xC0 + n / 64, 0x80 + n % 64]
  else if n < 0x10000 then
    [0xE0 + n / 4096, 0x80 + (n / 64) % 64, 0x80 + n % 64]
  else
    [0xF0 + n / 262144, 0x80 + (n / 4096) % 64, 0x80 + (n / 64) % 64,
     0x80 + n % 64]

/-- Percent-encoding of one byte: `%HH`. -/
def encByte (b : Nat) : List Char := ['%', hexDigitChar (b / 16), hexDigitChar b]

/-- Form-encoding of one character. -/
def formEncodeChar (c : Char) : List Char :=
  if unreservedChar c then [c]
  else if c = ' ' then ['+']
  else ((utf8Bytes c).map encByte).flatten

/-- Form-encoding of a character list. -/
def encodeChars (l : List Char) : List Char := (l.map formEncodeChar).flatten

/-- Form-encoding of a string (`URLSearchParams` serialization of one
key or value). -/
def formEncode (s : String) : String := ⟨encodeChars s.data⟩

/-- Numeric value of a hex digit, if any. -/
def hexVal (c : Char) : Option Nat :=
  if c.isDigit then some (c.toNat - 48)
  else if 'A' ≤ c ∧ c ≤ 'F' then some (c.toNat - 55)
  else if 'a' ≤ c ∧ c ≤ 'f' then some (c.toNat - 87)
  else none

/-- U+FFFD, emitted by the WHATWG UTF-8 decoder for invalid input. -/
def replChar : Char := Char.ofNat 0xFFFD

/-- A UTF-8 continuation byte. -/
def contB (b : Nat) : Bool := 0x80 ≤ b && b ≤ 0xBF

/-- Valid second byte of a three-byte sequence led by `b1`
(`E0` narrows the range to exclude overlong forms, `ED` to exclude
surrogates). -/
def cont2of3 (b1 b2 : Nat) : Bool :=
  (if b1 = 0xE0 then 0xA0 else 0x80) ≤ b2 &&
    b2 ≤ (if b1 = 0xED then 0x9F else 0xBF)

/-- Valid second byte of a four-byte sequence led by `b1`
(`F0` excludes overlong forms, `F4` caps at U+10FFFF). -/
def cont2of4 (b1 b2 : Nat) : Bool :=
  (if b1 = 0xF0 then 0x90 else 0x80) ≤ b2 &&
    b2 ≤ (if b1 = 0xF4 then 0x8F else 0xBF)

/-- The WHATWG UTF-8 decoder: assembles multi-byte sequences, emits one
U+FFFD per maximal invalid subpart and resumes at the offending byte.
`fuel` only enables structural recursion; every step consumes at least
one byte, so `fuel ≥ length` never runs out. -/
def utf8DecodeGo : Nat → List Nat → List Char
  | 0, _ => []
  | _ + 1, [] => []
  | fuel + 1, b1 :: bs =>
    if b1 ≤ 0x7F then Char.ofNat b1 :: utf8DecodeGo fuel bs
    else if 0xC2 ≤ b1 ∧ b1 ≤ 0xDF then
      match bs with
      | [] => [replChar]
      | b2 :: rest =>
          if contB b2 then
            Char.ofNat ((b1 - 0xC0) * 64 + (b2 - 0x80)) ::
              utf8DecodeGo fuel rest
          else replChar :: utf8DecodeGo fuel bs
    else if 0xE0 ≤ b1 ∧ b1 ≤ 0xEF then
      match bs with
      | [] => [replChar]
      | b2 :: rest2 =>
          if cont2of3 b1 b2 then
            match rest2 with
            | [] => [replChar]
            | b3 :: rest3 =>
                if contB b3 then
                  Char.ofNat ((b1 - 0xE0) * 4096 + (b2 - 0x80) * 64 +
                      (b3 - 0x80)) :: utf8DecodeGo fuel rest3
                else replChar :: utf8DecodeGo fuel rest2
          else replChar :: utf8DecodeGo fuel bs
    else if 0xF0 ≤ b1 ∧ b1 ≤ 0xF4 then
      match bs with
      | [] => [replChar]
      | b2 :: rest2 =>
          if cont2of4 b1 b2 then
            match rest2 with
            | [] => [replChar]
            | b3 :: rest3 =>
                if contB b3 then
                  match rest3 with
                  | [] => [replChar]
                  | b4 :: rest4 =>
                      if contB b4 then
                        Char.ofNat ((b1 - 0xF0) * 262144 +
                            (b2 - 0x80) * 4096 + (b3 - 0x80) * 64 +
                            (b4 - 0x80)) :: utf8DecodeGo fuel rest4
                      else replChar :: utf8DecodeGo fuel rest3
                else replChar :: utf8DecodeGo fuel rest2
          else replChar :: utf8DecodeGo fuel bs
    else replChar :: utf8DecodeGo fuel bs

/-- UTF-8 decode of a byte list. -/
def utf8Decode (bytes : List Nat) : List Char :=
  utf8DecodeGo bytes.length bytes

/-- The byte stream `URLSearchParams` percent-decoding produces before
UTF-8 decoding: `'+'` is the space byte, `%HH` the byte `HH` (malformed
escapes pass through as the bytes of `'%'`), other characters contribute
their UTF-8 bytes. -/
def percentDecodeBytes : List Char → List Nat
  | [] => []
  | '%' :: h1 :: h2 :: rest =>
    match hexVal h1, hexVal h2 with
    | some a, some b => (16 * a + b) :: percentDecodeBytes rest
    | _, _ => utf8Bytes '%' ++ percentDecodeBytes (h1 :: h2 :: rest)
  | '+' :: cs => 32 :: percentDecodeBytes cs
  | c :: cs => utf8Bytes c ++ percentDecodeBytes cs

/-- Percent-decoding as `URLSearchParams` applies to each parsed key and
value: percent-decode to bytes, then UTF-8 decode. -/
def percentDecodeChars (l : List Char) : List Char :=
  utf8Decode (percentDecodeBytes l)

/-- Split a character list at every occurrence of `sep`. -/
def splitSep (sep : Char) : List Char → List (List Char)
  | [] => [[]]
  | c :: cs =>
    if c = sep then [] :: splitSep sep cs
    else
      match splitSep sep cs with
      | [] => [[c]]
      | h :: t => (c :: h) :: t

/-- Split one `key=value` piece at its first `'='`
(no `'='` means the whole piece is the key and the value is empty). -/
def splitKV : List Char → List Char × List Char
  | [] => ([], [])
  | c :: cs =>
    if c = '=' then ([], cs)
    else
      let p := splitKV cs
      (c :: p.1, p.2)

/-- `URLSearchParams` parsing of a raw query string: split on `'&'`,
drop empty pieces, split each piece at its first `'='`, percent-decode. -/
def parseQueryChars (q : List Char) : List (String × String) :=
  ((splitSep '&' q).filter (fun piece => !piece.isEmpty)).map fun piece =>
    let p := splitKV piece
    (⟨percentDecodeChars p.1⟩, ⟨percentDecodeChars p.2⟩)

/-- `searchParams.get(key)`: value of the first entry named `key`. -/
def lookupQ (ps : List (String × String)) (key : String) : Option String :=
  (ps.find? (fun p => p.1 == key)).map Prod.snd

/-- The raw query of a URL-ish string: everything after the first `'?'`
up to a `'#'`; empty when there is no `'?'` before the fragment. -/
def extractQueryChars : List Char → List Char
  | [] => []
  | c :: cs =>
    if c = '?' then cs.takeWhile (fun d => d != '#')
    else if c = '#' then []
    else extractQueryChars cs

/-- All query parameters of a URL-ish string. -/
def queryParamsOf (s : String) : List (String × String) :=
  parseQueryChars (extractQueryChars s.data)

/-- `new URL(s).searchParams.get(key)`, on the raw string. -/
def getQueryParam (s key : String) : Option String :=
  lookupQ (queryParamsOf s) key

/-- Split `s` at its first `':'` into scheme and remainder (`none` when
there is no `':'`, in which case `new URL(s)` throws). -/
def schemeSplit : List Char → Option (List Char × List Char)
  | [] => none
  | c :: cs =>
    if c = ':' then some ([], cs)
    else
      match schemeSplit cs with
      | none => none
      | some p => some (c :: p.1, p.2)

/-- A URL scheme: one ASCII letter followed by letters, digits,
`'+'`, `'-'`, `'.'`. -/
def validScheme : List Char → Bool
  | [] => false
  | c :: cs =>
      c.isAlpha &&
        cs.all fun d => d.isAlphanum || d == '+' || d == '-' || d == '.'

/-- Model of a successfully constructed WHATWG `URL`: its scheme and the
remainder of the text (which carries path, query and fragment). -/
structure URLModel where
  scheme : String
  rest : String
deriving DecidableEq

/-- The special schemes that require a nonempty host (all of WHATWG's
special schemes except `file`, whose host may be empty). -/
def specialScheme (sch : String) : Bool :=
  lowerStr sch == "http" || lowerStr sch == "https" || lowerStr sch == "ws" ||
    lowerStr sch == "wss" || lowerStr sch == "ftp"

/-- The host a WHATWG parser reads after the scheme of a special-scheme
URL: skip all leading slashes/backslashes, then take until a path, query
or fragment delimiter. -/
def hostChars (rest : List Char) : List Char :=
  ((rest.dropWhile fun c => c == '/' || c == '\\').takeWhile
    fun c => !(c == '/' || c == '\\' || c == '?' || c == '#'))

/-- Model of the `new URL(s)` constructor: requires a syntactically
valid scheme before a `':'`, and for the special schemes additionally a
nonempty host (so `new URL("http://")` and `new URL("http://?code=x")`
throw). -/
def jsURL (s : String) : Option URLModel :=
  match schemeSplit s.data with
  | none => none
  | some p =>
      if validScheme p.1 then
        if specialScheme ⟨p.1⟩ && (hostChars p.2).isEmpty then none
        else some ⟨⟨p.1⟩, ⟨p.2⟩⟩
      else none

/-- `url.searchParams.get(key)` for a constructed `URL`. -/
def urlSearchParamsGet (u : URLModel) (key : String) : Option String :=
  lookupQ (parseQueryChars (extractQueryChars u.rest.data)) key

/-- One serialized `key=value` entry of `URLSearchParams.toString()`. -/
def entryChars (p : String × String) : List Char :=
  encodeChars p.1.data ++ '=' :: encodeChars p.2.data

/-- `URLSearchParams.toString()`: `&`-joined form-encoded entries. -/
def formatQueryChars : List (String × String) → List Char
  | [] => []
  | [p] => entryChars p
  | p :: q :: rest => entryChars p ++ '&' :: formatQueryChars (q :: rest)

/-- `URLSearchParams(params).toString()` as a string. -/
def formatQuery (ps : List (String × String)) : String := ⟨formatQueryChars ps⟩

/-!  OAuth configuration and PKCE (`src/google/auth.ts`). -/

/-- `REDIRECT_PORT = 51122`. -/
def REDIRECT_PORT : Nat := 51122

/-- `REDIRECT_URI` — `http://localhost:${REDIRECT_PORT}/oauth-callback`. -/
def REDIRECT_URI : String := "http://localhost:51122/oauth-callback"

/-- The provider's authorization endpoint. -/
def AUTH_URL : String := "https://accounts.google.com/o/oauth2/v2/auth"

/-- The four read-only scopes requested by the flow. -/
def SCOPES : List String :=
  ["https://www.googleapis.com/auth/gmail.readonly",
   "https://www.googleapis.com/auth/calendar.readonly",
   "https://www.googleapis.com/auth/userinfo.email",
   "https://www.googleapis.com/auth/userinfo.profile"]

/-- Lowercase hex digits (Node `Buffer.toString("hex")`). -/
def hexDigitsLower : List Char := "0123456789abcdef".data

/-- Two lowercase hex digits of one byte. -/
def hexByteLower (b : Nat) : List Char :=
  [hexDigitsLower.getD (b / 16 % 16) '0', hexDigitsLower.getD (b % 16) '0']

/-- `Buffer.from(bytes).toString("hex")`. -/
def hexString (bytes : List Nat) : String :=
  ⟨(bytes.map hexByteLower).flatten⟩

/-- The base64url alphabet. -/
def b64Chars : List Char :=
  "ABCDEFGHIJKLMNOPQRSTUVWXYZabcdefghijklmnopqrstuvwxyz0123456789-_".data

/-- One base64url digit for `n % 64`. -/
def b64Digit (n : Nat) : Char := b64Chars.getD (n % 64) 'A'

/-- Base64url encoding of a byte list, no padding. -/
def b64url : List Nat → List Char
  | [] => []
  | [b1] => [b64Digit (b1 / 4), b64Digit (b1 % 4 * 16)]
  | [b1, b2] =>
      [b64Digit (b1 / 4), b64Digit (b1 % 4 * 16 + b2 / 16),
       b64Digit (b2 % 16 * 4)]
  | b1 :: b2 :: b3 :: rest =>
      b64Digit (b1 / 4) :: b64Digit (b1 % 4 * 16 + b2 / 16) ::
        b64Digit (b2 % 16 * 4 + b3 / 64) :: b64Digit (b3 % 64) ::
          b64url rest

/-- `digest("base64url")`: base64url without padding. -/
def base64urlNoPad (bytes : List Nat) : String := ⟨b64url bytes⟩

/-- A PKCE verifier/challenge pair. -/
structure PKCEPair where
  verifier : String
  challenge : String

/-- `generatePKCE` from `src/google/auth.ts`.  `rnd` is the 32-byte
result of `randomBytes(32)` and `sha256` the SHA-256 digest function
(byte output), both passed in explicitly: the verifier is the hex
encoding of the random bytes and the challenge the base64url (no
padding) encoding of the digest of the verifier string. -/
def generatePKCE (sha256 : String → List Nat) (rnd : List Nat) : PKCEPair :=
  let verifier := hexString rnd
  { verifier := verifier, challenge := base64urlNoPad (sha256 verifier) }

/-- `buildAuthUrl`'s `URLSearchParams` entries, in source order. -/
def authUrlParams (clientId challenge stateTok : String) :
    List (String × String) :=
  [("client_id", clientId),
   ("response_type", "code"),
   ("redirect_uri", REDIRECT_URI),
   ("scope", String.intercalate " " SCOPES),
   ("code_challenge", challenge),
   ("code_challenge_method", "S256"),
   ("state", stateTok),
   ("access_type", "offline"),
   ("prompt", "consent")]

/-- `buildAuthUrl` from `src/google/auth.ts`. -/
def buildAuthUrl (clientId challenge stateTok : String) : String :=
  AUTH_URL ++ "?" ++ formatQuery (authUrlParams clientId challenge stateTok)

/-!  Manual-input parsing (`parseCallbackInput`). -/

/-- Result of `parseCallbackInput`: either `{code, state}` or
`{error}`. -/
inductive ParseResult where
  | ok (code stateTok : String)
  | err (msg : String)
deriving DecidableEq

/-- JavaScript `s.trim()`: strip whitespace from both ends (structural,
so the kernel can evaluate it). -/
def jsTrim (s : String) : String :=
  ⟨(((s.data.dropWhile Char.isWhitespace).reverse.dropWhile
      Char.isWhitespace).reverse)⟩

/-- `parseCallbackInput` from `src/google/auth.ts`. -/
def parseCallbackInput (input expectedState : String) : ParseResult :=
  let trimmed := jsTrim input
  if trimmed.isEmpty then .err "No input provided"
  else
    match jsURL trimmed with
    | some url =>
        let code := urlSearchParamsGet url "code"
        let stateTok := (urlSearchParamsGet url "state").getD expectedState
        match code with
        | none => .err "Missing 'code' parameter in URL"
        | some c =>
            if c.isEmpty then .err "Missing 'code' parameter in URL"
            else if stateTok.isEmpty then
              .err "Missing 'state' parameter. Paste the full URL."
            else .ok c stateTok
    | none =>
        if expectedState.isEmpty then
          .err "Paste the full redirect URL, not just the code."
        else .ok trimmed expectedState

/-!  Token exchange and refresh. -/

/-- A credential record (`GoogleWorkspaceCredentials` in
`src/google/types.ts`); `expires` is an absolute epoch-millis value. -/
structure GoogleWorkspaceCredentials where
  access : String
  refresh : String
  expires : Int
  email : Option String
deriving DecidableEq

/-- The provider's response to the code-exchange POST: HTTP success
flag, raw body text, and the parsed JSON fields the source reads. -/
structure TokenResponse where
  ok : Bool
  text : String
  access_token : String
  refresh_token : Option String
  expires_in : Int
deriving DecidableEq

/-- The userinfo lookup's fate: `reachable = false` models the `fetch`
call throwing; otherwise `ok` is the HTTP success flag and `email` the
optional JSON field. -/
structure EmailProbe where
  reachable : Bool
  ok : Bool
  email : Option String
deriving DecidableEq

/-- `getUserEmail` from `src/google/auth.ts`: best-effort; any thrown
error is swallowed and a non-success response yields no email. -/
def getUserEmail (r : EmailProbe) : Option String :=
  if r.reachable && r.ok then r.email else none

/-- The remediation message for a success response without a refresh
token. -/
def MISSING_REFRESH_MSG : String :=
  "No refresh token received. You may need to revoke access at https://myaccount.google.com/permissions and try again."

/-- `exchangeCodeForTokens` from `src/google/auth.ts`, as a pure
function of the token-endpoint response, the userinfo probe, and the
current wall-clock time `now` (epoch millis). -/
def exchangeCodeForTokens (resp : TokenResponse) (emailResp : EmailProbe)
    (now : Int) : Except String GoogleWorkspaceCredentials :=
  if !resp.ok then .error ("Token exchange failed: " ++ resp.text)
  else if !envTruthy resp.refresh_token then .error MISSING_REFRESH_MSG
  else
    let email := getUserEmail emailResp
    let expiresAt := now + resp.expires_in * 1000 - 5 * 60 * 1000
    .ok { refresh := resp.refresh_token.getD "", access := resp.access_token,
          expires := expiresAt, email := email }

/-- The form body of the refresh POST, in source order. -/
def refreshRequestBody (clientId clientSecret refreshToken : String) :
    List (String × String) :=
  [("client_id", clientId),
   ("client_secret", clientSecret),
   ("refresh_token", refreshToken),
   ("grant_type", "refresh_token")]

/-- The provider's response to the refresh POST. -/
structure RefreshResponse where
  ok : Bool
  text : String
  access_token : String
  expires_in : Int
deriving DecidableEq

/-- `refreshGoogleToken`'s result type: access token and expiry only. -/
structure RefreshResult where
  access : String
  expires : Int
deriving DecidableEq

/-- `refreshGoogleToken` from `src/google/auth.ts`, as a pure function
of the token-endpoint response and the current time. -/
def refreshGoogleToken (resp : RefreshResponse) (now : Int) :
    Except String RefreshResult :=
  if !resp.ok then .error ("Token refresh failed: " ++ resp.text)
  else
    .ok { access := resp.access_token,
          expires := now + resp.expires_in * 1000 - 5 * 60 * 1000 }

/-!  The local callback listener (`startCallbackServer`). -/

/-- One HTTP request, carrying `req.url` (path plus query). -/
structure HttpReq where
  url : String
deriving DecidableEq

/-- The request's pathname (`new URL(req.url, base).pathname` for the
relative request targets an HTTP server receives). -/
def reqPath (r : HttpReq) : String :=
  ⟨r.url.data.takeWhile fun c => c != '?' && c != '#'⟩

/-- A request query parameter (`url.searchParams.get(key)`). -/
def reqParam (r : HttpReq) (key : String) : Option String :=
  getQueryParam r.url key

instance {ε α : Type} [DecidableEq ε] [DecidableEq α] :
    DecidableEq (Except ε α) := fun x y =>
  match x, y with
  | .ok a, .ok b =>
      if h : a = b then isTrue (by rw [h])
      else isFalse (by intro hh; cases hh; exact h rfl)
  | .error a, .error b =>
      if h : a = b then isTrue (by rw [h])
      else isFalse (by intro hh; cases hh; exact h rfl)
  | .ok _, .error _ => isFalse (by intro h; cases h)
  | .error _, .ok _ => isFalse (by intro h; cases h)

/-- What one request makes the listener's request handler do:
the HTTP status written, whether the pending promise settles (and how),
and whether the handler itself called `server.close()`. -/
structure HandlerStep where
  status : Nat
  settled : Option (Except String String)
  closedByListener : Bool
deriving DecidableEq

/-- The request handler inside `startCallbackServer`. -/
def callbackHandler (expectedState : String) (r : HttpReq) : HandlerStep :=
  if reqPath r != "/oauth-callback" then
    { status := 404, settled := none, closedByListener := false }
  else
    let code := reqParam r "code"
    let stateTok := reqParam r "state"
    let error := reqParam r "error"
    if envTruthy error then
      { status := 400,
        settled := some (.error ("OAuth error: " ++ error.getD "")),
        closedByListener := true }
    else if !envTruthy code then
      { status := 400, settled := some (.error "Missing authorization code"),
        closedByListener := true }
    else if stateTok != some expectedState then
      { status := 400, settled := some (.error "OAuth state mismatch"),
        closedByListener := true }
    else
      { status := 200, settled := some (.ok (code.getD "")),
        closedByListener := false }

/-- The first request that settles the listener's promise, with the
handler's close flag; `none` when no request ever settles it (the
promise suspends indefinitely). -/
def resolveFirst (expectedState : String) :
    List HttpReq → Option (Except String String × Bool)
  | [] => none
  | r :: rs =>
      let h := callbackHandler expectedState r
      match h.settled with
      | none => resolveFirst expectedState rs
      | some ev => some (ev, h.closedByListener)

/-- `startCallbackServer` from `src/google/auth.ts`, as the awaited fate
of its promise.  Input: the attempt's state token, a bind failure
(`some msg` when the server's `error` event fires with message `msg`
before any request — in that case the port was never successfully bound,
so it is free, recorded `true`), and the sequence of requests reaching
the server.  Output: `none` if the promise never settles, otherwise the
settlement (`.ok code` resolution or `.error msg` rejection) paired with
whether the fixed port is already free at that moment (the handler
closes the server on its rejection paths but not on resolution, where it
instead hands the caller a `close` action). -/
def startCallbackServer (expectedState : String) (bindFail : Option String)
    (reqs : List HttpReq) : Option (Except String String × Bool) :=
  match bindFail with
  | some m => some (.error m, true)
  | none => resolveFirst expectedState reqs

/-!  The login orchestrator. -/

/-- Observable events of a login run: URL-sink and progress-sink calls,
the orchestrator invoking the listener's returned `close()`, the manual
prompt read, and the code-exchange call. -/
inductive Ev where
  | sink (url : String)
  | progress (msg : String)
  | callerClose
  | promptRead (line : String)
  | exchangeCall (code verifier : String)
deriving DecidableEq

/-- The outside world a login run interacts with: the successive
`randomBytes` results (`ent 0` = first call, …), the SHA-256 function,
the configured client id, the local listener's fate, the token-endpoint
responses (indexed by exchange-call count), the userinfo probe, the
operator's pasted line, and the wall clock. -/
structure World where
  ent : Nat → List Nat
  sha256 : String → List Nat
  clientId : String
  bindFail : Option String
  listenerReqs : List HttpReq
  exchangeResp : Nat → TokenResponse
  emailResp : EmailProbe
  manualInput : String
  now : Int

/-- `loginGoogleWorkspaceLocal` from `src/google/auth.ts`: mint PKCE and
state (entropy calls 0 and 1), build and publish the URL, await the
callback server, close it, then exchange.  Returns the event trace and
the outcome (`none` = suspended forever on the listener). -/
def loginGoogleWorkspaceLocal (w : World) :
    List Ev × Option (Except String GoogleWorkspaceCredentials) :=
  let pkce := generatePKCE w.sha256 (w.ent 0)
  let stateTok := hexString (w.ent 1)
  let authUrl := buildAuthUrl w.clientId pkce.challenge stateTok
  let evs := [Ev.sink authUrl,
              Ev.progress "Waiting for authorization in browser..."]
  match startCallbackServer stateTok w.bindFail w.listenerReqs with
  | none => (evs, none)
  | some (.error m, _) => (evs, some (.error m))
  | some (.ok code, _) =>
      (evs ++ [Ev.callerClose,
               Ev.progress "Exchanging authorization code for tokens...",
               Ev.exchangeCall code pkce.verifier],
       some (exchangeCodeForTokens (w.exchangeResp 0) w.emailResp w.now))

/-- `loginGoogleWorkspaceManual` from `src/google/auth.ts`, minting its
secrets from entropy calls `i` and `i+1` and exchanging against
token-endpoint response `ex` (0 when manual is the first attempt, 1
after a local attempt already consumed a response). -/
def loginGoogleWorkspaceManualAt (w : World) (i ex : Nat) :
    List Ev × Except String GoogleWorkspaceCredentials :=
  let pkce := generatePKCE w.sha256 (w.ent i)
  let stateTok := hexString (w.ent (i + 1))
  let authUrl := buildAuthUrl w.clientId pkce.challenge stateTok
  let evs := [Ev.sink authUrl,
              Ev.progress "Waiting for you to paste the callback URL...",
              Ev.promptRead w.manualInput]
  match parseCallbackInput w.manualInput stateTok with
  | .err e => (evs, .error e)
  | .ok code pstate =>
      if pstate != stateTok then
        (evs, .error "OAuth state mismatch - please try again")
      else
        (evs ++ [Ev.progress "Exchanging authorization code for tokens...",
                 Ev.exchangeCall code pkce.verifier],
         exchangeCodeForTokens (w.exchangeResp ex) w.emailResp w.now)

/-- The fallback test in `loginGoogleWorkspace`'s `catch`: the error
message contains `"EADDRINUSE"`, `"port"` or `"listen"` (every error
thrown inside the flow is an `Error` instance, so the `instanceof`
guard always passes). -/
def bindFallbackTriggered (m : String) : Bool :=
  strContains m "EADDRINUSE" || strContains m "port" || strContains m "listen"

/-- `loginGoogleWorkspace` from `src/google/auth.ts`: manual directly if
the probe says so; otherwise run the local flow and fall back to manual
exactly when the caught error message passes `bindFallbackTriggered`. -/
def loginGoogleWorkspace (e : Env) (w : World) :
    List Ev × Option (Except String GoogleWorkspaceCredentials) :=
  if shouldUseManualOAuthFlow e then
    let r := loginGoogleWorkspaceManualAt w 0 0
    (r.1, some r.2)
  else
    match loginGoogleWorkspaceLocal w with
    | (evs, none) => (evs, none)
    | (evs, some (.ok c)) => (evs, some (.ok c))
    | (evs, some (.error m)) =>
        if bindFallbackTriggered m then
          let r := loginGoogleWorkspaceManualAt w 2 1
          (evs ++
             Ev.progress "Local callback server failed. Switching to manual mode..." ::
               r.1,
           some r.2)
        else (evs, some (.error m))

/-!  Agent-tool account resolution (`resolveGoogleAccessToken` in the
gmail and calendar tools). -/

/-- The profile-selection core of `resolveGoogleAccessToken`: given the
stored profile ids for the google-workspace provider and maybe an
`account` argument, pick the profile id (or fail). -/
def resolveGoogleProfileId (profiles : List String)
    (account : Option String) : Except String String :=
  match profiles with
  | [] => .error "No Google Workspace account configured. Run: clawdbot google login"
  | p0 :: rest =>
      if envTruthy account then
        let a := account.getD ""
        match (p0 :: rest).find? (fun p => strContains p a) with
        | some m => .ok m
        | none =>
            .error ("Google account not found: " ++ a ++ ". Available: " ++
              String.intercalate ", " (p0 :: rest))
      else .ok p0

/-!  C5. -/

/-- C5 counterexample: the empty input trims to text that is not a
syntactically valid URL, yet the parser returns a hard failure rather
than the trimmed text as the code paired with the expected state. -/
theorem C5_parse_counterexample :
    jsURL (jsTrim "") = none ∧
    parseCallbackInput "" "E" = ParseResult.err "No input provided" ∧
    parseCallbackInput "" "E" ≠ ParseResult.ok (jsTrim "") "E" := by decide

/-- C5 amended: for nonempty trimmed input — if the trimmed input is a
syntactically valid URL, the parser returns its `code` parameter (a
missing or empty `code` is a hard failure) paired with its `state`
parameter, substituted with the attempt's expected state when the
parameter is absent; an empty resulting state (an empty `state`
parameter, or an absent one with an empty expected state) is a hard
failure.  If the trimmed input is not a valid URL, it is returned as the
code with the expected state when the expected state is nonempty, and is
a hard failure otherwise. -/
theorem C5_parse_amended (input expected : String)
    (hin : (jsTrim input).isEmpty = false) :
    (jsURL (jsTrim input) = none → expected.isEmpty = false →
        parseCallbackInput input expected = .ok (jsTrim input) expected) ∧
    (jsURL (jsTrim input) = none → expected.isEmpty = true →
        parseCallbackInput input expected =
          .err "Paste the full redirect URL, not just the code.") ∧
    (∀ u, jsURL (jsTrim input) = some u → urlSearchParamsGet u "code" = none →
        parseCallbackInput input expected =
          .err "Missing 'code' parameter in URL") ∧
    (∀ u c, jsURL (jsTrim input) = some u →
        urlSearchParamsGet u "code" = some c → c.isEmpty = true →
        parseCallbackInput input expected =
          .err "Missing 'code' parameter in URL") ∧
    (∀ u c, jsURL (jsTrim input) = some u →
        urlSearchParamsGet u "code" = some c → c.isEmpty = false →
        urlSearchParamsGet u "state" = none → expected.isEmpty = false →
        parseCallbackInput input expected = .ok c expected) ∧
    (∀ u c, jsURL (jsTrim input) = some u →
        urlSearchParamsGet u "code" = some c → c.isEmpty = false →
        urlSearchParamsGet u "state" = none → expected.isEmpty = true →
        parseCallbackInput input expected =
          .err "Missing 'state' parameter. Paste the full URL.") ∧
    (∀ u c s, jsURL (jsTrim input) = some u →
        urlSearchParamsGet u "code" = some c → c.isEmpty = false →
        urlSearchParamsGet u "state" = some s → s.isEmpty = false →
        parseCallbackInput input expected = .ok c s) ∧
    (∀ u c s, jsURL (jsTrim input) = some u →
        urlSearchParamsGet u "code" = some c → c.isEmpty = false →
        urlSearchParamsGet u "state" = some s → s.isEmpty = true →
        parseCallbackInput input expected =
          .err "Missing 'state' parameter. Paste the full URL.") := by
  refine ⟨?_, ?_, ?_, ?_, ?_, ?_, ?_, ?_⟩
  · intro hu he
    simp [parseCallbackInput, hin, hu, he]
  · intro hu he
    simp [parseCallbackInput, hin, hu, he]
  · intro u hu hc
    simp [parseCallbackInput, hin, hu, hc]
  · intro u c hu hc hce
    simp [parseCallbackInput, hin, hu, hc, hce]
  · intro u c hu hc hce hs he
    simp [parseCallbackInput, hin, hu, hc, hce, hs, he]
  · intro u c hu hc hce hs he
    simp [parseCallbackInput, hin, hu, hc, hce, hs, he]
  · intro u c s hu hc hce hs hse
    simp [parseCallbackInput, hin, hu, hc, hce, hs, hse]
  · intro u c s hu hc hce hs hse
    simp [parseCallbackInput, hin, hu, hc, hce, hs, hse]

/-- Closed witness for `C5_parse_amended` at the spec's two examples,
plus the empty-expected and empty-state hard failures. -/
theorem C5_parse_amended_witness :
    parseCallbackInput "http://localhost:51122/oauth-callback?code=X&state=Y"
        "E" = ParseResult.ok "X" "Y" ∧
    parseCallbackInput "justacode" "E" = ParseResult.ok "justacode" "E" ∧
    parseCallbackInput "justacode" "" =
      ParseResult.err "Paste the full redirect URL, not just the code." ∧
    parseCallbackInput "http://h/cb?code=X&state=" "E" =
      ParseResult.err "Missing 'state' parameter. Paste the full URL." ∧
    parseCallbackInput "http://h/cb?code=X" "" =
      ParseResult.err "Missing 'state' parameter. Paste the full URL." := by
  refine ⟨?_, ?_, ?_, ?_, ?_⟩
  · exact (C5_parse_amended
      "http://localhost:51122/oauth-callback?code=X&state=Y" "E"
      (by decide)).2.2.2.2.2.2.1
      ⟨"http", "//localhost:51122/oauth-callback?code=X&state=Y"⟩ "X" "Y"
      (by decide) (by decide) (by decide) (by decide) (by decide)
  · have h := (C5_parse_amended "justacode" "E" (by decide)).1
      (by decide) (by decide)
    rw [show (jsTrim "justacode") = "justacode" from by decide] at h
    exact h
  · exact (C5_parse_amended "justacode" "" (by decide)).2.1
      (by decide) (by decide)
  · exact (C5_parse_amended "http://h/cb?code=X&state=" "E"
      (by decide)).2.2.2.2.2.2.2 ⟨"http", "//h/cb?code=X&state="⟩ "X" ""
      (by decide) (by decide) (by decide) (by decide) (by decide)
  · exact (C5_parse_amended "http://h/cb?code=X" "" (by decide)).2.2.2.2.2.1
      ⟨"http", "//h/cb?code=X"⟩ "X" (by decide) (by decide) (by decide)
      (by decide) (by decide)

/-!  Concrete environments and worlds used by closed theorems. -/

/-- A desktop environment: no remote markers, not Linux. -/
def envLocalHost : Env :=
  { platform := "darwin", sshClient := none, sshTty := none,
    sshConnection := none, remoteContainers := none, codespaces := none,
    display := none, waylandDisplay := none, procVersion := none }

/-- Number of URL-sink invocations in a trace. -/
def countSinks (evs : List Ev) : Nat :=
  evs.countP fun e => match e with | .sink _ => true | _ => false

/-- The URLs handed to the URL sink, in order. -/
def sinkUrls (evs : List Ev) : List String :=
  evs.filterMap fun e => match e with | .sink u => some u | _ => none

/-- A world whose local listener succeeds (callback with matching state
`"00"` = hex of `ent 1 = [0]`) and whose exchange succeeds. -/
def okWorld : World :=
  { ent := fun _ => [0], sha256 := fun _ => [1], clientId := "cid",
    bindFail := none,
    listenerReqs := [⟨"/oauth-callback?code=abc&state=00"⟩],
    exchangeResp := fun _ => ⟨true, "", "AT", some "RT", 3600⟩,
    emailResp := ⟨true, true, some "a@b.c"⟩, manualInput := "", now := 0 }

/-- A world whose local listener succeeds but whose code exchange fails
with a provider body containing the substring `"port"` (inside
`"unsupported_grant_type"`). -/
def exchangeFailWorld : World :=
  { ent := fun _ => [0], sha256 := fun _ => [1], clientId := "cid",
    bindFail := none,
    listenerReqs := [⟨"/oauth-callback?code=abc&state=00"⟩],
    exchangeResp := fun _ => ⟨false, "unsupported_grant_type", "", none, 0⟩,
    emailResp := ⟨false, false, none⟩, manualInput := "", now := 0 }

/-- A world whose local listener fails to bind
(`EADDRINUSE` on the fixed port). -/
def bindFailWorld : World :=
  { ent := fun _ => [0], sha256 := fun _ => [1], clientId := "cid",
    bindFail := some "listen EADDRINUSE: address already in use :::51122",
    listenerReqs := [],
    exchangeResp := fun _ => ⟨false, "", "", none, 0⟩,
    emailResp := ⟨false, false, none⟩, manualInput := "", now := 0 }

/-!  C1. -/

/-- Each request either leaves the pending operation alone, rejects it
with the listener closed, or resolves it with the listener still open. -/
lemma callbackHandler_cases (st : String) (r : HttpReq) :
    (callbackHandler st r).settled = none ∨
    (∃ m, callbackHandler st r =
      { status := 400, settled := some (.error m), closedByListener := true }) ∨
    (∃ c, callbackHandler st r =
      { status := 200, settled := some (.ok c), closedByListener := false }) := by
  unfold callbackHandler
  dsimp only
  split
  · exact Or.inl rfl
  · split
    · exact Or.inr (Or.inl ⟨_, rfl⟩)
    · split
      · exact Or.inr (Or.inl ⟨_, rfl⟩)
      · split
        · exact Or.inr (Or.inl ⟨_, rfl⟩)
        · exact Or.inr (Or.inr ⟨_, rfl⟩)

/-- When the settling request rejects, the handler had closed the
listener. -/
lemma resolveFirst_error_closed (st : String) (reqs : List HttpReq)
    (m : String) (free : Bool)
    (h : resolveFirst st reqs = some (.error m, free)) : free = true := by
  induction reqs with
  | nil => simp [resolveFirst] at h
  | cons r rs ih =>
      rcases callbackHandler_cases st r with hc | ⟨m', hc⟩ | ⟨c, hc⟩
      · rw [resolveFirst, hc] at h
        exact ih h
      · rw [resolveFirst, hc] at h
        cases h
        rfl
      · rw [resolveFirst, hc] at h
        cases h

/-- When the settling request resolves, the listener was left open. -/
lemma resolveFirst_ok_open (st : String) (reqs : List HttpReq)
    (code : String) (free : Bool)
    (h : resolveFirst st reqs = some (.ok code, free)) : free = false := by
  induction reqs with
  | nil => simp [resolveFirst] at h
  | cons r rs ih =>
      rcases callbackHandler_cases st r with hc | ⟨m', hc⟩ | ⟨c, hc⟩
      · rw [resolveFirst, hc] at h
        exact ih h
      · rw [resolveFirst, hc] at h
        cases h
      · rw [resolveFirst, hc] at h
        cases h
        rfl

/-- C1 counterexample: a success callback resolves the pending operation
with `code = "abc"` while the port is still bound (`false`), refuting
"in every outcome the fixed port is already free at the moment the
await returns". -/
theorem C1_port_release_counterexample :
    (startCallbackServer "S" none
        [⟨"/oauth-callback?code=abc&state=S"⟩]).map Prod.snd = some false ∧
    (startCallbackServer "S" none
        [⟨"/oauth-callback?code=abc&state=S"⟩]).map Prod.fst =
      some (.ok "abc") := by decide

/-- C1 amended: on every failure settlement (bind failure or protocol
rejection) the listener itself has released the port before the waiting
caller resumes; on the success settlement the port is still bound and
the orchestrator invokes the returned close action immediately after its
await, before progress reporting and the code exchange. -/
theorem C1_port_release_amended (stTok : String) (bindFail : Option String)
    (reqs : List HttpReq) (w : World) :
    (∀ m free, startCallbackServer stTok bindFail reqs =
        some (.error m, free) → free = true) ∧
    (∀ code free,
        startCallbackServer (hexString (w.ent 1)) w.bindFail w.listenerReqs =
          some (.ok code, free) →
        free = false ∧
        (loginGoogleWorkspaceLocal w).1 =
          [Ev.sink (buildAuthUrl w.clientId
              (generatePKCE w.sha256 (w.ent 0)).challenge
              (hexString (w.ent 1))),
           Ev.progress "Waiting for authorization in browser...",
           Ev.callerClose,
           Ev.progress "Exchanging authorization code for tokens...",
           Ev.exchangeCall code (generatePKCE w.sha256 (w.ent 0)).verifier]) := by
  constructor
  · intro m free h
    cases bindFail with
    | some m' =>
        rw [show startCallbackServer stTok (some m') reqs =
            some (.error m', true) from rfl] at h
        cases h
        rfl
    | none =>
        rw [show startCallbackServer stTok none reqs =
            resolveFirst stTok reqs from rfl] at h
        exact resolveFirst_error_closed _ _ _ _ h
  · intro code free h
    have hfree : free = false := by
      cases hb : w.bindFail with
      | some m' =>
          rw [hb, show startCallbackServer (hexString (w.ent 1)) (some m')
              w.listenerReqs = some (.error m', true) from rfl] at h
          cases h
      | none =>
          rw [hb, show startCallbackServer (hexString (w.ent 1)) none
              w.listenerReqs = resolveFirst (hexString (w.ent 1))
              w.listenerReqs from rfl] at h
          exact resolveFirst_ok_open _ _ _ _ h
    refine ⟨hfree, ?_⟩
    subst hfree
    unfold loginGoogleWorkspaceLocal
    simp only [h]
    rfl

set_option maxRecDepth 8000 in
/-- Closed witness for `C1_port_release_amended`: a rejecting settlement
with the port free, and the success-path trace on `okWorld` showing the
orchestrator's close before the exchange. -/
theorem C1_port_release_amended_witness :
    (true = true) ∧
    (false = false ∧
      (loginGoogleWorkspaceLocal okWorld).1 =
        [Ev.sink (buildAuthUrl okWorld.clientId
            (generatePKCE okWorld.sha256 (okWorld.ent 0)).challenge
            (hexString (okWorld.ent 1))),
         Ev.progress "Waiting for authorization in browser...",
         Ev.callerClose,
         Ev.progress "Exchanging authorization code for tokens...",
         Ev.exchangeCall "abc"
           (generatePKCE okWorld.sha256 (okWorld.ent 0)).verifier]) :=
  ⟨(C1_port_release_amended "S" (some "boom") [] okWorld).1 "boom" true
      (by decide),
   (C1_port_release_amended "S" (some "boom") [] okWorld).2 "abc" false
      (by decide)⟩

/-!  C2. -/

set_option maxRecDepth 8000 in
/-- C2 counterexample: the local attempt fails at the exchange step (not
a bind failure — `bindFail = none`, the listener resolved a valid
callback), with provider body `"unsupported_grant_type"`; because that
message contains the substring `"port"`, the orchestrator nevertheless
falls back and invokes the URL sink a second time. -/
theorem C2_fallback_counterexample :
    (loginGoogleWorkspaceLocal exchangeFailWorld).2 =
      some (.error "Token exchange failed: unsupported_grant_type") ∧
    exchangeFailWorld.bindFail = none ∧
    countSinks (loginGoogleWorkspace envLocalHost exchangeFailWorld).1 = 2 := by
  refine ⟨by decide, rfl, by decide⟩

/-- C2 amended: after a failed local attempt the orchestrator falls back
to the manual flow exactly when the error message contains one of the
substrings `"EADDRINUSE"`, `"port"`, `"listen"`; genuine bind failures
match, but protocol- or exchange-level errors whose text happens to
contain one of these substrings also trigger the fallback, and any other
error terminates the attempt unchanged. -/
theorem C2_fallback_amended (e : Env) (w : World)
    (hp : shouldUseManualOAuthFlow e = false) (evs : List Ev) (m : String)
    (hl : loginGoogleWorkspaceLocal w = (evs, some (.error m))) :
    (bindFallbackTriggered m = true →
        loginGoogleWorkspace e w =
          (evs ++
             Ev.progress "Local callback server failed. Switching to manual mode..." ::
               (loginGoogleWorkspaceManualAt w 2 1).1,
           some (loginGoogleWorkspaceManualAt w 2 1).2)) ∧
    (bindFallbackTriggered m = false →
        loginGoogleWorkspace e w = (evs, some (.error m))) := by
  constructor <;> intro hb <;> simp [loginGoogleWorkspace, hp, hl, hb]

set_option maxRecDepth 8000 in
/-- Closed witness for `C2_fallback_amended`: a real `EADDRINUSE` bind
failure triggers the fallback into the manual flow. -/
theorem C2_fallback_amended_witness :
    bindFallbackTriggered
      "listen EADDRINUSE: address already in use :::51122" = true ∧
    loginGoogleWorkspace envLocalHost bindFailWorld =
      ((loginGoogleWorkspaceLocal bindFailWorld).1 ++
         Ev.progress "Local callback server failed. Switching to manual mode..." ::
           (loginGoogleWorkspaceManualAt bindFailWorld 2 1).1,
       some (loginGoogleWorkspaceManualAt bindFailWorld 2 1).2) :=
  ⟨by decide,
   (C2_fallback_amended envLocalHost bindFailWorld (by decide)
      (loginGoogleWorkspaceLocal bindFailWorld).1
      "listen EADDRINUSE: address already in use :::51122" (by decide)).1
      (by decide)⟩

/-!  Helper lemmas. -/

/-- Every string contains the empty string. -/
lemma strContains_empty (p : String) : strContains p "" = true := by
  unfold strContains
  cases p.data <;> rfl

/-- `List.getD` returns a member of the list or the default. -/
lemma getD_mem_or {α : Type} (l : List α) (n : Nat) (d : α) :
    l.getD n d ∈ l ∨ l.getD n d = d := by
  induction l generalizing n with
  | nil => right; simp [List.getD]
  | cons a t ih =>
      cases n with
      | zero => left; simp [List.getD]
      | succ k =>
          rcases ih k with h | h
          · left; simp only [List.getD_cons_succ]; exact List.mem_cons_of_mem _ h
          · right; simpa only [List.getD_cons_succ] using h

/-- `hexString` produces two characters per byte. -/
lemma hexString_length (bytes : List Nat) :
    (hexString bytes).length = 2 * bytes.length := by
  show ((bytes.map hexByteLower).flatten).length = 2 * bytes.length
  induction bytes with
  | nil => rfl
  | cons b bs ih =>
      simp only [List.map_cons, List.flatten_cons, List.length_append,
        List.length_cons, ih]
      show 2 + 2 * bs.length = 2 * (bs.length + 1)
      omega

/-!  Query-string roundtrip: parsing a `URLSearchParams`-serialized query
recovers the original entries. -/

/-- Characters that can appear in form-encoded output never collide with
the structural separators of a URL query. -/
def goodChar (c : Char) : Prop := c ≠ '&' ∧ c ≠ '=' ∧ c ≠ '#' ∧ c ≠ '?'

instance (c : Char) : Decidable (goodChar c) := by
  unfold goodChar; infer_instance

lemma hexDigitChar_good (n : Nat) : goodChar (hexDigitChar n) := by
  unfold hexDigitChar
  rcases getD_mem_or hexDigits (n % 16) '0' with h | h
  · exact (by decide : ∀ c ∈ hexDigits, goodChar c) _ h
  · rw [h]; decide

lemma mem_encByte_good (b : Nat) (c : Char) (h : c ∈ encByte b) :
    goodChar c := by
  unfold encByte at h
  rcases List.mem_cons.mp h with rfl | h
  · decide
  rcases List.mem_cons.mp h with rfl | h
  · exact hexDigitChar_good _
  rcases List.mem_cons.mp h with rfl | h
  · exact hexDigitChar_good _
  cases h

lemma unreserved_good (c : Char) (h : unreservedChar c = true) :
    goodChar c := by
  refine ⟨?_, ?_, ?_, ?_⟩ <;> (rintro rfl; revert h; decide)

lemma mem_formEncodeChar_good (c d : Char) (h : d ∈ formEncodeChar c) :
    goodChar d := by
  unfold formEncodeChar at h
  split at h
  · next hu =>
      rcases List.mem_cons.mp h with rfl | h
      · exact unreserved_good _ hu
      cases h
  · split at h
    · rcases List.mem_cons.mp h with rfl | h
      · decide
      cases h
    · rcases List.mem_flatten.mp h with ⟨l, hl, hd⟩
      rcases List.mem_map.mp hl with ⟨b, _, rfl⟩
      exact mem_encByte_good _ _ hd

lemma mem_encodeChars_good (l : List Char) (d : Char)
    (h : d ∈ encodeChars l) : goodChar d := by
  rcases List.mem_flatten.mp h with ⟨piece, hp, hd⟩
  rcases List.mem_map.mp hp with ⟨c, _, rfl⟩
  exact mem_formEncodeChar_good _ _ hd

lemma mem_entryChars_good (p : String × String) (d : Char)
    (h : d ∈ entryChars p) : d ≠ '&' ∧ d ≠ '#' ∧ d ≠ '?' := by
  unfold entryChars at h
  rcases List.mem_append.mp h with h | h
  · have := mem_encodeChars_good _ _ h
    exact ⟨this.1, this.2.2.1, this.2.2.2⟩
  · rcases List.mem_cons.mp h with rfl | h
    · decide
    · have := mem_encodeChars_good _ _ h
      exact ⟨this.1, this.2.2.1, this.2.2.2⟩

lemma mem_formatQueryChars_good (ps : List (String × String)) (d : Char)
    (h : d ∈ formatQueryChars ps) : d ≠ '#' ∧ d ≠ '?' := by
  induction ps with
  | nil => cases h
  | cons p rest ih =>
      cases rest with
      | nil =>
          have := mem_entryChars_good p d h
          exact ⟨this.2.1, this.2.2⟩
      | cons q t =>
          rw [formatQueryChars] at h
          rcases List.mem_append.mp h with h | h
          · have := mem_entryChars_good p d h
            exact ⟨this.2.1, this.2.2⟩
          · rcases List.mem_cons.mp h with rfl | h
            · decide
            · exact ih h

lemma splitSep_sepFree (sep : Char) (l : List Char)
    (h : ∀ c ∈ l, c ≠ sep) : splitSep sep l = [l] := by
  induction l with
  | nil => rfl
  | cons c cs ih =>
      rw [splitSep, if_neg (h c (List.mem_cons_self _ _)),
        ih fun d hd => h d (List.mem_cons_of_mem _ hd)]

lemma splitSep_append (sep : Char) (a b : List Char)
    (h : ∀ c ∈ a, c ≠ sep) :
    splitSep sep (a ++ sep :: b) = a :: splitSep sep b := by
  induction a with
  | nil => simp [splitSep]
  | cons c cs ih =>
      rw [List.cons_append, splitSep,
        if_neg (h c (List.mem_cons_self _ _)),
        ih fun d hd => h d (List.mem_cons_of_mem _ hd)]

lemma splitKV_append (k v : List Char) (h : ∀ c ∈ k, c ≠ '=') :
    splitKV (k ++ '=' :: v) = (k, v) := by
  induction k with
  | nil => simp [splitKV]
  | cons c cs ih =>
      rw [List.cons_append, splitKV,
        if_neg (h c (List.mem_cons_self _ _)),
        ih fun d hd => h d (List.mem_cons_of_mem _ hd)]

lemma entryChars_ne_nil (p : String × String) : entryChars p ≠ [] := by
  unfold entryChars
  cases encodeChars p.1.data <;> simp

/-- The encode-then-decode roundtrip property of one string. -/
def decEnc (s : String) : Prop :=
  percentDecodeChars (encodeChars s.data) = s.data

instance (s : String) : Decidable (decEnc s) := by
  unfold decEnc; infer_instance

lemma encodeChars_all_unreserved (l : List Char)
    (h : ∀ c ∈ l, unreservedChar c = true) : encodeChars l = l := by
  induction l with
  | nil => rfl
  | cons c cs ih =>
      show formEncodeChar c ++ encodeChars cs = c :: cs
      rw [formEncodeChar, if_pos (h c (List.mem_cons_self _ _)),
        ih fun d hd => h d (List.mem_cons_of_mem _ hd)]
      rfl

/-- Unreserved characters are ASCII. -/
lemma unreserved_lt128 (c : Char) (h : unreservedChar c = true) :
    c.toNat < 128 := by
  unfold unreservedChar Char.isAlpha Char.isUpper Char.isLower Char.isDigit at h
  simp only [Bool.or_eq_true, Bool.and_eq_true, decide_eq_true_eq,
    beq_iff_eq] at h
  have hval : ∀ m : UInt32, c.val ≤ m → c.toNat ≤ m.toNat := fun _ hm => hm
  rcases h with (((((⟨_, h⟩ | ⟨_, h⟩) | ⟨_, h⟩) | rfl) | rfl) | rfl) | rfl
  · have h2 := hval _ h
    have h3 : UInt32.toNat 90 = 90 := rfl
    omega
  · have h2 := hval _ h
    have h3 : UInt32.toNat 122 = 122 := rfl
    omega
  · have h2 := hval _ h
    have h3 : UInt32.toNat 57 = 57 := rfl
    omega
  · decide
  · decide
  · decide
  · decide

lemma utf8Bytes_ascii (c : Char) (h : c.toNat < 128) :
    utf8Bytes c = [c.toNat] := by
  unfold utf8Bytes
  rw [if_pos h]

lemma utf8DecodeGo_ascii (fuel : Nat) (l : List Char) (hf : l.length ≤ fuel)
    (h : ∀ c ∈ l, c.toNat < 128) :
    utf8DecodeGo fuel (l.map Char.toNat) = l := by
  induction fuel generalizing l with
  | zero =>
      cases l with
      | nil => rfl
      | cons c cs => simp at hf
  | succ f ih =>
      cases l with
      | nil => rfl
      | cons c cs =>
          have hc := h c (List.mem_cons_self _ _)
          show utf8DecodeGo (f + 1) (c.toNat :: cs.map Char.toNat) = c :: cs
          rw [utf8DecodeGo.eq_def]
          dsimp only
          rw [if_pos (by omega : c.toNat ≤ 0x7F), Char.ofNat_toNat]
          have := ih cs (by simpa using Nat.le_of_succ_le_succ hf)
            fun d hd => h d (List.mem_cons_of_mem _ hd)
          exact congrArg (c :: ·) this

lemma utf8Decode_ascii (l : List Char) (h : ∀ c ∈ l, c.toNat < 128) :
    utf8Decode (l.map Char.toNat) = l := by
  unfold utf8Decode
  exact utf8DecodeGo_ascii _ l (by simp) h

lemma percentDecodeBytes_unres (l : List Char)
    (h : ∀ c ∈ l, unreservedChar c = true) :
    percentDecodeBytes l = l.map Char.toNat := by
  induction l with
  | nil => rfl
  | cons c cs ih =>
      have hc := h c (List.mem_cons_self _ _)
      have h1 : c ≠ '%' := by rintro rfl; revert hc; decide
      have h2 : c ≠ '+' := by rintro rfl; revert hc; decide
      have hub : utf8Bytes c = [c.toNat] :=
        utf8Bytes_ascii c (unreserved_lt128 c hc)
      have hrest : percentDecodeBytes cs = cs.map Char.toNat :=
        ih fun d hd => h d (List.mem_cons_of_mem _ hd)
      rw [percentDecodeBytes.eq_def]
      split <;> simp_all

lemma percentDecode_all_unreserved (l : List Char)
    (h : ∀ c ∈ l, unreservedChar c = true) : percentDecodeChars l = l := by
  unfold percentDecodeChars
  rw [percentDecodeBytes_unres l h]
  exact utf8Decode_ascii l fun c hc => unreserved_lt128 c (h c hc)

/-- Parsing one serialized entry recovers it. -/
lemma parse_entry (p : String × String) (hk : decEnc p.1) (hv : decEnc p.2) :
    ((⟨percentDecodeChars (splitKV (entryChars p)).1⟩ : String),
     (⟨percentDecodeChars (splitKV (entryChars p)).2⟩ : String)) = p := by
  have hkv : splitKV (entryChars p) =
      (encodeChars p.1.data, encodeChars p.2.data) :=
    splitKV_append _ _ fun c hc => (mem_encodeChars_good _ _ hc).2.1
  rw [hkv]
  show (⟨percentDecodeChars (encodeChars p.1.data)⟩,
    ⟨percentDecodeChars (encodeChars p.2.data)⟩) = p
  rw [hk, hv]

/-- Parsing a full serialized query recovers the entry list. -/
lemma parseQuery_format (ps : List (String × String))
    (h : ∀ p ∈ ps, decEnc p.1 ∧ decEnc p.2) :
    parseQueryChars (formatQueryChars ps) = ps := by
  induction ps with
  | nil => rfl
  | cons p rest ih =>
      cases rest with
      | nil =>
          show parseQueryChars (entryChars p) = [p]
          unfold parseQueryChars
          rw [splitSep_sepFree '&' (entryChars p)
            (fun c hc => (mem_entryChars_good p c hc).1)]
          rw [List.filter_cons_of_pos
            (by simpa using entryChars_ne_nil p), List.filter_nil]
          rw [List.map_cons, List.map_nil]
          dsimp only
          rw [parse_entry p (h p (List.mem_cons_self _ _)).1
            (h p (List.mem_cons_self _ _)).2]
      | cons q t =>
          show parseQueryChars
              (entryChars p ++ '&' :: formatQueryChars (q :: t)) = _
          unfold parseQueryChars
          rw [splitSep_append '&' (entryChars p) _
            (fun c hc => (mem_entryChars_good p c hc).1)]
          rw [List.filter_cons_of_pos
            (by simpa using entryChars_ne_nil p)]
          rw [List.map_cons]
          dsimp only
          rw [parse_entry p (h p (List.mem_cons_self _ _)).1
            (h p (List.mem_cons_self _ _)).2]
          have ih' := ih fun x hx => h x (List.mem_cons_of_mem _ hx)
          unfold parseQueryChars at ih'
          rw [ih']

/-- `extractQueryChars` skips a `'?'`/`'#'`-free prefix. -/
lemma extractQuery_append (a q : List Char)
    (ha : ∀ c ∈ a, c ≠ '?' ∧ c ≠ '#') :
    extractQueryChars (a ++ '?' :: q) = q.takeWhile (fun d => d != '#') := by
  induction a with
  | nil => simp [extractQueryChars]
  | cons c cs ih =>
      rw [List.cons_append, extractQueryChars,
        if_neg (by exact_mod_cast (ha c (List.mem_cons_self _ _)).1),
        if_neg (by exact_mod_cast (ha c (List.mem_cons_self _ _)).2)]
      exact ih fun d hd => ha d (List.mem_cons_of_mem _ hd)

lemma takeWhile_no_hash (q : List Char) (h : ∀ c ∈ q, c ≠ '#') :
    q.takeWhile (fun d => d != '#') = q := by
  induction q with
  | nil => rfl
  | cons c cs ih =>
      rw [List.takeWhile_cons_of_pos
        (by simpa using h c (List.mem_cons_self _ _))]
      rw [ih fun d hd => h d (List.mem_cons_of_mem _ hd)]

/-- The query of a built authorization URL is exactly its serialized
parameter list. -/
lemma extractQuery_buildAuthUrl (cid ch st : String) :
    extractQueryChars (buildAuthUrl cid ch st).data =
      formatQueryChars (authUrlParams cid ch st) := by
  have hdata : (buildAuthUrl cid ch st).data =
      AUTH_URL.data ++ '?' :: formatQueryChars (authUrlParams cid ch st) := by
    show (AUTH_URL ++ "?" ++ formatQuery (authUrlParams cid ch st)).data = _
    rw [String.data_append, String.data_append]
    rfl
  rw [hdata,
    extractQuery_append _ _ (by decide : ∀ c ∈ AUTH_URL.data, c ≠ '?' ∧ c ≠ '#'),
    takeWhile_no_hash _ (fun c hc => (mem_formatQueryChars_good _ c hc).1)]

set_option maxRecDepth 20000 in
lemma decEnc_redirect_uri : decEnc REDIRECT_URI := by decide

set_option maxRecDepth 80000 in
lemma decEnc_scope : decEnc (String.intercalate " " SCOPES) := by decide

/-- Extracting `state` and `code_challenge` back out of a built
authorization URL returns the values that went in. -/
lemma getParam_buildAuthUrl (cid ch st : String)
    (hcid : decEnc cid) (hch : decEnc ch) (hst : decEnc st) :
    getQueryParam (buildAuthUrl cid ch st) "state" = some st ∧
    getQueryParam (buildAuthUrl cid ch st) "code_challenge" = some ch := by
  have hparams : ∀ p ∈ authUrlParams cid ch st, decEnc p.1 ∧ decEnc p.2 := by
    intro p hp
    simp only [authUrlParams, List.mem_cons, List.not_mem_nil, or_false] at hp
    rcases hp with rfl | rfl | rfl | rfl | rfl | rfl | rfl | rfl | rfl
    · exact ⟨by show decEnc "client_id"; decide, hcid⟩
    · exact ⟨by show decEnc "response_type"; decide, by show decEnc "code"; decide⟩
    · exact ⟨by show decEnc "redirect_uri"; decide, decEnc_redirect_uri⟩
    · exact ⟨by show decEnc "scope"; decide, decEnc_scope⟩
    · exact ⟨by show decEnc "code_challenge"; decide, hch⟩
    · exact ⟨by show decEnc "code_challenge_method"; decide,
        by show decEnc "S256"; decide⟩
    · exact ⟨by show decEnc "state"; decide, hst⟩
    · exact ⟨by show decEnc "access_type"; decide,
        by show decEnc "offline"; decide⟩
    · exact ⟨by show decEnc "prompt"; decide,
        by show decEnc "consent"; decide⟩
  unfold getQueryParam queryParamsOf
  rw [extractQuery_buildAuthUrl, parseQuery_format _ hparams]
  exact ⟨rfl, rfl⟩

lemma decEnc_of_forall_unreserved (s : String)
    (h : ∀ c ∈ s.data, unreservedChar c = true) : decEnc s := by
  unfold decEnc
  rw [encodeChars_all_unreserved _ h, percentDecode_all_unreserved _ h]

lemma hexLowerD_unreserved (n : Nat) :
    unreservedChar (hexDigitsLower.getD n '0') = true := by
  rcases getD_mem_or hexDigitsLower n '0' with h | h
  · exact (by decide : ∀ c ∈ hexDigitsLower, unreservedChar c = true) _ h
  · rw [h]; decide

/-- Hex strings consist only of form-safe characters. -/
lemma hexString_all_unreserved (bytes : List Nat) :
    ∀ c ∈ (hexString bytes).data, unreservedChar c = true := by
  show ∀ c ∈ (bytes.map hexByteLower).flatten, unreservedChar c = true
  intro c hc
  rcases List.mem_flatten.mp hc with ⟨l, hl, hcl⟩
  rcases List.mem_map.mp hl with ⟨b, _, rfl⟩
  unfold hexByteLower at hcl
  rcases List.mem_cons.mp hcl with rfl | hcl
  · exact hexLowerD_unreserved _
  rcases List.mem_cons.mp hcl with rfl | hcl
  · exact hexLowerD_unreserved _
  cases hcl

lemma b64Digit_unreserved (n : Nat) :
    unreservedChar (b64Digit n) = true := by
  unfold b64Digit
  rcases getD_mem_or b64Chars (n % 64) 'A' with h | h
  · exact (by decide : ∀ c ∈ b64Chars, unreservedChar c = true) _ h
  · rw [h]; decide

/-- Base64url strings consist only of form-safe characters. -/
lemma b64url_all_unreserved (bytes : List Nat) :
    ∀ c ∈ b64url bytes, unreservedChar c = true := by
  induction bytes using b64url.induct with
  | case1 => intro c hc; cases hc
  | case2 b1 =>
      intro c hc
      rcases List.mem_cons.mp hc with rfl | hc
      · exact b64Digit_unreserved _
      rcases List.mem_cons.mp hc with rfl | hc
      · exact b64Digit_unreserved _
      cases hc
  | case3 b1 b2 =>
      intro c hc
      rcases List.mem_cons.mp hc with rfl | hc
      · exact b64Digit_unreserved _
      rcases List.mem_cons.mp hc with rfl | hc
      · exact b64Digit_unreserved _
      rcases List.mem_cons.mp hc with rfl | hc
      · exact b64Digit_unreserved _
      cases hc
  | case4 b1 b2 b3 rest ih =>
      intro c hc
      rcases List.mem_cons.mp hc with rfl | hc
      · exact b64Digit_unreserved _
      rcases List.mem_cons.mp hc with rfl | hc
      · exact b64Digit_unreserved _
      rcases List.mem_cons.mp hc with rfl | hc
      · exact b64Digit_unreserved _
      rcases List.mem_cons.mp hc with rfl | hc
      · exact b64Digit_unreserved _
      exact ih _ hc

lemma decEnc_hexString (bytes : List Nat) : decEnc (hexString bytes) :=
  decEnc_of_forall_unreserved _ (hexString_all_unreserved bytes)

lemma decEnc_b64url (bytes : List Nat) : decEnc (base64urlNoPad bytes) :=
  decEnc_of_forall_unreserved _ (b64url_all_unreserved bytes)

/-!  Trace lemmas: each attempt invokes the URL sink exactly once, with
its own freshly built URL. -/

lemma sinkUrls_append (a b : List Ev) :
    sinkUrls (a ++ b) = sinkUrls a ++ sinkUrls b := by
  simp [sinkUrls]

lemma sinkUrls_progress (s : String) (l : List Ev) :
    sinkUrls (Ev.progress s :: l) = sinkUrls l := by
  simp [sinkUrls]

/-- The local attempt publishes exactly its own freshly built URL. -/
lemma sinkUrls_local (w : World) :
    sinkUrls (loginGoogleWorkspaceLocal w).1 =
      [buildAuthUrl w.clientId (generatePKCE w.sha256 (w.ent 0)).challenge
        (hexString (w.ent 1))] := by
  unfold loginGoogleWorkspaceLocal
  dsimp only
  cases hs : startCallbackServer (hexString (w.ent 1)) w.bindFail
      w.listenerReqs with
  | none => simp [sinkUrls]
  | some x =>
      rcases x with ⟨ev, free⟩
      cases ev with
      | error m => simp [sinkUrls]
      | ok code => simp [sinkUrls]

/-- The manual attempt publishes exactly its own freshly built URL. -/
lemma sinkUrls_manualAt (w : World) (i ex : Nat) :
    sinkUrls (loginGoogleWorkspaceManualAt w i ex).1 =
      [buildAuthUrl w.clientId (generatePKCE w.sha256 (w.ent i)).challenge
        (hexString (w.ent (i + 1)))] := by
  unfold loginGoogleWorkspaceManualAt
  dsimp only
  cases hp : parseCallbackInput w.manualInput (hexString (w.ent (i + 1))) with
  | err e => simp [sinkUrls]
  | ok code pstate =>
      dsimp only
      split <;> simp [sinkUrls]

/-!  C3. -/

/-- A world whose local listener fails to bind and whose entropy stream
yields different bytes for the second attempt's draws (calls 2 and 3)
than for the first attempt's (calls 0 and 1). -/
def freshWorld : World :=
  { ent := fun i => if i ≤ 1 then [0] else [1],
    sha256 := fun s => if s = hexString [0] then [1] else [2],
    clientId := "cid",
    bindFail := some "listen EADDRINUSE: address already in use :::51122",
    listenerReqs := [],
    exchangeResp := fun _ => ⟨false, "", "", none, 0⟩,
    emailResp := ⟨false, false, none⟩, manualInput := "", now := 0 }

/-- C3: on a local→manual fallback, each attempt mints its own PKCE pair
and state token from fresh entropy draws and publishes its own URL to
the sink exactly once (one URL per attempt, two in total); whenever the
fresh draws differ — as their randomness guarantees — the second URL's
`state` and `code_challenge` query values differ from the first's. -/
theorem C3_fresh_secrets (e : Env) (w : World)
    (hp : shouldUseManualOAuthFlow e = false) (evs : List Ev) (m : String)
    (hl : loginGoogleWorkspaceLocal w = (evs, some (.error m)))
    (hb : bindFallbackTriggered m = true)
    (hcid : ∀ c ∈ w.clientId.data, unreservedChar c = true)
    (hst : hexString (w.ent 1) ≠ hexString (w.ent 3))
    (hch : (generatePKCE w.sha256 (w.ent 0)).challenge ≠
      (generatePKCE w.sha256 (w.ent 2)).challenge) :
    sinkUrls (loginGoogleWorkspace e w).1 =
      [buildAuthUrl w.clientId (generatePKCE w.sha256 (w.ent 0)).challenge
        (hexString (w.ent 1)),
       buildAuthUrl w.clientId (generatePKCE w.sha256 (w.ent 2)).challenge
        (hexString (w.ent 3))] ∧
    sinkUrls (loginGoogleWorkspaceLocal w).1 =
      [buildAuthUrl w.clientId (generatePKCE w.sha256 (w.ent 0)).challenge
        (hexString (w.ent 1))] ∧
    sinkUrls (loginGoogleWorkspaceManualAt w 2 1).1 =
      [buildAuthUrl w.clientId (generatePKCE w.sha256 (w.ent 2)).challenge
        (hexString (w.ent 3))] ∧
    getQueryParam (buildAuthUrl w.clientId
        (generatePKCE w.sha256 (w.ent 0)).challenge (hexString (w.ent 1)))
        "state" = some (hexString (w.ent 1)) ∧
    getQueryParam (buildAuthUrl w.clientId
        (generatePKCE w.sha256 (w.ent 2)).challenge (hexString (w.ent 3)))
        "state" = some (hexString (w.ent 3)) ∧
    getQueryParam (buildAuthUrl w.clientId
        (generatePKCE w.sha256 (w.ent 0)).challenge (hexString (w.ent 1)))
        "state" ≠
      getQueryParam (buildAuthUrl w.clientId
        (generatePKCE w.sha256 (w.ent 2)).challenge (hexString (w.ent 3)))
        "state" ∧
    getQueryParam (buildAuthUrl w.clientId
        (generatePKCE w.sha256 (w.ent 0)).challenge (hexString (w.ent 1)))
        "code_challenge" ≠
      getQueryParam (buildAuthUrl w.clientId
        (generatePKCE w.sha256 (w.ent 2)).challenge (hexString (w.ent 3)))
        "code_challenge" := by
  have hch1 : decEnc (generatePKCE w.sha256 (w.ent 0)).challenge :=
    decEnc_b64url (w.sha256 (hexString (w.ent 0)))
  have hch2 : decEnc (generatePKCE w.sha256 (w.ent 2)).challenge :=
    decEnc_b64url (w.sha256 (hexString (w.ent 2)))
  have hg1 := getParam_buildAuthUrl w.clientId
    (generatePKCE w.sha256 (w.ent 0)).challenge (hexString (w.ent 1))
    (decEnc_of_forall_unreserved _ hcid) hch1 (decEnc_hexString (w.ent 1))
  have hg2 := getParam_buildAuthUrl w.clientId
    (generatePKCE w.sha256 (w.ent 2)).challenge (hexString (w.ent 3))
    (decEnc_of_forall_unreserved _ hcid) hch2 (decEnc_hexString (w.ent 3))
  have hrun : loginGoogleWorkspace e w =
      (evs ++
         Ev.progress "Local callback server failed. Switching to manual mode..." ::
           (loginGoogleWorkspaceManualAt w 2 1).1,
       some (loginGoogleWorkspaceManualAt w 2 1).2) := by
    simp [loginGoogleWorkspace, hp, hl, hb]
  have hevs : evs = (loginGoogleWorkspaceLocal w).1 :=
    (congrArg Prod.fst hl).symm
  refine ⟨?_, sinkUrls_local w, sinkUrls_manualAt w 2 1, hg1.1, hg2.1, ?_, ?_⟩
  · rw [hrun]
    show sinkUrls (evs ++ _ :: (loginGoogleWorkspaceManualAt w 2 1).1) = _
    rw [sinkUrls_append, sinkUrls_progress, hevs, sinkUrls_local w,
      sinkUrls_manualAt w 2 1]
    rfl
  · rw [hg1.1, hg2.1]
    intro hc
    exact hst (Option.some.injEq _ _ ▸ hc)
  · rw [hg1.2, hg2.2]
    intro hc
    exact hch (Option.some.injEq _ _ ▸ hc)

set_option maxRecDepth 8000 in
/-- Closed witness for `C3_fresh_secrets` on `freshWorld`: the bind
failure falls back to manual, the two sink URLs are the two distinct
fresh builds, and their `state` / `code_challenge` values differ. -/
theorem C3_fresh_secrets_witness :
    sinkUrls (loginGoogleWorkspace envLocalHost freshWorld).1 =
      [buildAuthUrl freshWorld.clientId
        (generatePKCE freshWorld.sha256 (freshWorld.ent 0)).challenge
        (hexString (freshWorld.ent 1)),
       buildAuthUrl freshWorld.clientId
        (generatePKCE freshWorld.sha256 (freshWorld.ent 2)).challenge
        (hexString (freshWorld.ent 3))] ∧
    sinkUrls (loginGoogleWorkspaceLocal freshWorld).1 =
      [buildAuthUrl freshWorld.clientId
        (generatePKCE freshWorld.sha256 (freshWorld.ent 0)).challenge
        (hexString (freshWorld.ent 1))] ∧
    sinkUrls (loginGoogleWorkspaceManualAt freshWorld 2 1).1 =
      [buildAuthUrl freshWorld.clientId
        (generatePKCE freshWorld.sha256 (freshWorld.ent 2)).challenge
        (hexString (freshWorld.ent 3))] ∧
    getQueryParam (buildAuthUrl freshWorld.clientId
        (generatePKCE freshWorld.sha256 (freshWorld.ent 0)).challenge
        (hexString (freshWorld.ent 1))) "state" =
      some (hexString (freshWorld.ent 1)) ∧
    getQueryParam (buildAuthUrl freshWorld.clientId
        (generatePKCE freshWorld.sha256 (freshWorld.ent 2)).challenge
        (hexString (freshWorld.ent 3))) "state" =
      some (hexString (freshWorld.ent 3)) ∧
    getQueryParam (buildAuthUrl freshWorld.clientId
        (generatePKCE freshWorld.sha256 (freshWorld.ent 0)).challenge
        (hexString (freshWorld.ent 1))) "state" ≠
      getQueryParam (buildAuthUrl freshWorld.clientId
        (generatePKCE freshWorld.sha256 (freshWorld.ent 2)).challenge
        (hexString (freshWorld.ent 3))) "state" ∧
    getQueryParam (buildAuthUrl freshWorld.clientId
        (generatePKCE freshWorld.sha256 (freshWorld.ent 0)).challenge
        (hexString (freshWorld.ent 1))) "code_challenge" ≠
      getQueryParam (buildAuthUrl freshWorld.clientId
        (generatePKCE freshWorld.sha256 (freshWorld.ent 2)).challenge
        (hexString (freshWorld.ent 3))) "code_challenge" :=
  C3_fresh_secrets envLocalHost freshWorld (by decide)
    (loginGoogleWorkspaceLocal freshWorld).1
    "listen EADDRINUSE: address already in use :::51122" (by decide)
    (by decide) (by decide) (by decide) (by decide)

/-!  C4. -/

/-- The source's `isRemoteEnvironment` if-chain is the disjunction of the
spec's containerish and headless-Linux predicates. -/
lemma isRemote_eq_spec (e : Env) :
    isRemoteEnvironment e = (isContainerish e || isHeadlessLinux e) := by
  have hbody : (e.platform == "linux" && !envTruthy e.display &&
      !envTruthy e.waylandDisplay && !isWSL e) = isHeadlessLinux e := rfl
  unfold isRemoteEnvironment isContainerish
  rw [hbody]
  cases envTruthy e.sshClient <;> cases envTruthy e.sshTty <;>
    cases envTruthy e.sshConnection <;> cases envTruthy e.remoteContainers <;>
      cases envTruthy e.codespaces <;> cases isHeadlessLinux e <;> simp

/-- C4: the environment probe's manual-mode decision equals
`isContainerish() OR isHeadlessLinux() OR isLinuxCompatLayerGen2()` as a
pure function of the process environment plus one optional
kernel-version read — true whenever an SSH/container/cloud-IDE marker is
set, true on headless non-WSL Linux, true when the kernel version
identifies gen-2 WSL, and false when none of these signals are
present. -/
theorem C4_probe_decision_eq_spec (e : Env) :
    shouldUseManualOAuthFlow e =
      (isContainerish e || isHeadlessLinux e || isLinuxCompatLayerGen2 e) := by
  unfold shouldUseManualOAuthFlow
  rw [isWSL2_eq_gen2, isRemote_eq_spec]
  cases isLinuxCompatLayerGen2 e <;> cases isContainerish e <;>
    cases isHeadlessLinux e <;> simp

/-!  C6. -/

/-- C6: a non-success exchange response fails with the provider body; a
success response lacking a refresh token (the JS falsiness check: absent
or empty) fails with the remediation message (which tells the operator
to revoke and retry) and never yields a credential; with a nonempty
refresh token the exchange succeeds for every fate of the best-effort
email lookup, whose failure merely leaves the email absent. -/
theorem C6_exchange_error_handling (resp : TokenResponse)
    (emailResp : EmailProbe) (now : Int) :
    (resp.ok = false →
      exchangeCodeForTokens resp emailResp now =
        .error ("Token exchange failed: " ++ resp.text)) ∧
    (resp.ok = true → envTruthy resp.refresh_token = false →
      exchangeCodeForTokens resp emailResp now = .error MISSING_REFRESH_MSG ∧
      strContains MISSING_REFRESH_MSG "revoke" = true) ∧
    (∀ rt, resp.ok = true → resp.refresh_token = some rt →
      rt.isEmpty = false →
      exchangeCodeForTokens resp emailResp now =
        .ok { access := resp.access_token, refresh := rt,
              expires := now + resp.expires_in * 1000 - 300000,
              email := getUserEmail emailResp }) ∧
    (emailResp.reachable = false ∨ emailResp.ok = false →
      getUserEmail emailResp = none) := by
  refine ⟨?_, ?_, ?_, ?_⟩
  · intro hok
    simp [exchangeCodeForTokens, hok]
  · intro hok hrt
    refine ⟨by simp [exchangeCodeForTokens, hok, hrt], by decide⟩
  · intro rt hok hrt hne
    have htr2 : envTruthy (some rt) = true := by simp [envTruthy, hne]
    simp only [exchangeCodeForTokens, hok, hrt, htr2, Bool.not_true,
      Bool.false_eq_true, if_false, Option.getD_some]
    have heq : now + resp.expires_in * 1000 - 5 * 60 * 1000 =
        now + resp.expires_in * 1000 - 300000 := by norm_num
    rw [heq]
  · intro h
    rcases h with h | h <;> simp [getUserEmail, h]

/-- Closed witness for `C6_exchange_error_handling` at concrete
responses: a failed exchange, a missing refresh token, a
present-but-empty refresh token, and a full success. -/
theorem C6_exchange_error_handling_witness :
    exchangeCodeForTokens ⟨false, "bad_grant", "", none, 0⟩ ⟨true, true, some "a@b.c"⟩ 7 =
      .error ("Token exchange failed: " ++ "bad_grant") ∧
    exchangeCodeForTokens ⟨true, "", "AT", none, 3600⟩ ⟨true, true, some "a@b.c"⟩ 7 =
      .error MISSING_REFRESH_MSG ∧
    exchangeCodeForTokens ⟨true, "", "AT", some "", 3600⟩ ⟨true, true, some "a@b.c"⟩ 7 =
      .error MISSING_REFRESH_MSG ∧
    exchangeCodeForTokens ⟨true, "", "AT", some "RT", 3600⟩ ⟨false, false, none⟩ 7 =
      .ok { access := "AT", refresh := "RT",
            expires := 7 + 3600 * 1000 - 300000,
            email := getUserEmail ⟨false, false, none⟩ } :=
  ⟨(C6_exchange_error_handling ⟨false, "bad_grant", "", none, 0⟩
      ⟨true, true, some "a@b.c"⟩ 7).1 rfl,
   ((C6_exchange_error_handling ⟨true, "", "AT", none, 3600⟩
      ⟨true, true, some "a@b.c"⟩ 7).2.1 rfl rfl).1,
   ((C6_exchange_error_handling ⟨true, "", "AT", some "", 3600⟩
      ⟨true, true, some "a@b.c"⟩ 7).2.1 rfl rfl).1,
   (C6_exchange_error_handling ⟨true, "", "AT", some "RT", 3600⟩
      ⟨false, false, none⟩ 7).2.2.1 "RT" rfl rfl (by decide)⟩

/-!  C7. -/

/-- C7: every credential returned by a successful exchange, and every
result of a successful refresh, carries
`expires = now + provider_ttl_seconds*1000 − 300000`. -/
theorem C7_expiry_skew (resp : TokenResponse) (rresp : RefreshResponse)
    (emailResp : EmailProbe) (now : Int) :
    (∀ cred, exchangeCodeForTokens resp emailResp now = .ok cred →
        cred.expires = now + resp.expires_in * 1000 - 300000) ∧
    (∀ res, refreshGoogleToken rresp now = .ok res →
        res.expires = now + rresp.expires_in * 1000 - 300000) := by
  constructor
  · intro cred h
    unfold exchangeCodeForTokens at h
    split at h
    · cases h
    · split at h
      · cases h
      · cases h
        show now + resp.expires_in * 1000 - 5 * 60 * 1000 =
          now + resp.expires_in * 1000 - 300000
        norm_num
  · intro res h
    unfold refreshGoogleToken at h
    split at h
    · cases h
    · cases h
      show now + rresp.expires_in * 1000 - 5 * 60 * 1000 =
        now + rresp.expires_in * 1000 - 300000
      norm_num

/-- Closed witness for `C7_expiry_skew`. -/
theorem C7_expiry_skew_witness :
    ({ access := "AT", refresh := "RT", expires := 4300000, email := none } :
        GoogleWorkspaceCredentials).expires = 1000000 + 3600 * 1000 - 300000 ∧
    ({ access := "AT2", expires := 4300000 } : RefreshResult).expires =
      1000000 + 3600 * 1000 - 300000 :=
  ⟨(C7_expiry_skew ⟨true, "", "AT", some "RT", 3600⟩ ⟨true, "", "AT2", 3600⟩
      ⟨false, false, none⟩ 1000000).1 _ (by decide),
   (C7_expiry_skew ⟨true, "", "AT", some "RT", 3600⟩ ⟨true, "", "AT2", 3600⟩
      ⟨false, false, none⟩ 1000000).2 _ (by decide)⟩

/-!  C8. -/

/-- C8: the challenge is the base64url-without-padding encoding of the
SHA-256 digest of the verifier, and the verifier (hex of the 32 random
bytes) is 64 characters long, inside PKCE's 43–128 range. -/
theorem C8_pkce_shape (sha256 : String → List Nat) (rnd : List Nat)
    (h : rnd.length = 32) :
    (generatePKCE sha256 rnd).challenge =
      base64urlNoPad (sha256 (generatePKCE sha256 rnd).verifier) ∧
    (generatePKCE sha256 rnd).verifier.length = 64 ∧
    43 ≤ (generatePKCE sha256 rnd).verifier.length ∧
    (generatePKCE sha256 rnd).verifier.length ≤ 128 := by
  have hlen : (generatePKCE sha256 rnd).verifier.length = 64 := by
    show (hexString rnd).length = 64
    rw [hexString_length, h]
  exact ⟨rfl, hlen, by omega, by omega⟩

/-- Closed witness for `C8_pkce_shape`. -/
theorem C8_pkce_shape_witness :
    (generatePKCE (fun _ => [1, 2, 3]) (List.replicate 32 0)).challenge =
      base64urlNoPad ((fun _ => [1, 2, 3])
        (generatePKCE (fun _ => [1, 2, 3]) (List.replicate 32 0)).verifier) ∧
    (generatePKCE (fun _ => [1, 2, 3]) (List.replicate 32 0)).verifier.length = 64 ∧
    43 ≤ (generatePKCE (fun _ => [1, 2, 3]) (List.replicate 32 0)).verifier.length ∧
    (generatePKCE (fun _ => [1, 2, 3]) (List.replicate 32 0)).verifier.length ≤ 128 :=
  C8_pkce_shape (fun _ => [1, 2, 3]) (List.replicate 32 0) (by decide)

/-!  C9. -/

/-- C9: the refresh POST body carries `grant_type=refresh_token` and the
caller's refresh token; a non-success status fails with the provider
body and no retry; success yields exactly an access token and a skewed
expiry (the result type has no refresh or email field, so the caller's
stored values are untouched). -/
theorem C9_refresh_frame (clientId clientSecret refreshToken : String)
    (resp : RefreshResponse) (now : Int) :
    ("grant_type", "refresh_token") ∈
        refreshRequestBody clientId clientSecret refreshToken ∧
    ("refresh_token", refreshToken) ∈
        refreshRequestBody clientId clientSecret refreshToken ∧
    (resp.ok = false →
      refreshGoogleToken resp now =
        .error ("Token refresh failed: " ++ resp.text)) ∧
    (resp.ok = true →
      refreshGoogleToken resp now =
        .ok { access := resp.access_token,
              expires := now + resp.expires_in * 1000 - 300000 }) := by
  refine ⟨by simp [refreshRequestBody], by simp [refreshRequestBody], ?_, ?_⟩
  · intro hok
    simp [refreshGoogleToken, hok]
  · intro hok
    simp only [refreshGoogleToken, hok, Bool.not_true, Bool.false_eq_true,
      if_false]
    have : now + resp.expires_in * 1000 - 5 * 60 * 1000 =
        now + resp.expires_in * 1000 - 300000 := by norm_num
    rw [this]

/-- Closed witness for `C9_refresh_frame`. -/
theorem C9_refresh_frame_witness :
    ("grant_type", "refresh_token") ∈ refreshRequestBody "ci" "cs" "RT" ∧
    refreshGoogleToken ⟨false, "bad", "", 0⟩ 5 =
      .error ("Token refresh failed: " ++ "bad") ∧
    refreshGoogleToken ⟨true, "", "AT", 3600⟩ 5 =
      .ok { access := "AT", expires := 5 + 3600 * 1000 - 300000 } :=
  ⟨(C9_refresh_frame "ci" "cs" "RT" ⟨false, "bad", "", 0⟩ 5).1,
   (C9_refresh_frame "ci" "cs" "RT" ⟨false, "bad", "", 0⟩ 5).2.2.1 rfl,
   (C9_refresh_frame "ci" "cs" "RT" ⟨true, "", "AT", 3600⟩ 5).2.2.2 rfl⟩

/-!  C10. -/

/-- C10: with an account argument the profile is chosen by substring
containment — the first stored profile id containing the string wins;
with no containing profile the call fails with a "Google account not
found" error listing the stored profiles; with no account argument the
first profile is used. -/
theorem C10_account_resolution (profiles : List String) (h : profiles ≠ [])
    (a : String) :
    resolveGoogleProfileId profiles none = .ok (profiles.head h) ∧
    (∀ m, profiles.find? (fun p => strContains p a) = some m →
        resolveGoogleProfileId profiles (some a) = .ok m) ∧
    (profiles.find? (fun p => strContains p a) = none →
        resolveGoogleProfileId profiles (some a) =
          .error ("Google account not found: " ++ a ++ ". Available: " ++
            String.intercalate ", " profiles)) := by
  cases profiles with
  | nil => exact absurd rfl h
  | cons p0 rest =>
      refine ⟨rfl, ?_, ?_⟩
      · intro m hm
        by_cases ha : a.isEmpty = true
        · have ha' : a = "" := (String.isEmpty_iff a).mp ha
          subst ha'
          have hfind : (p0 :: rest).find? (fun p => strContains p "") = some p0 := by
            simp [List.find?, strContains_empty]
          rw [hfind] at hm
          cases hm
          have hfalse : envTruthy (some "") = false := rfl
          simp [resolveGoogleProfileId, hfalse]
        · have htr : envTruthy (some a) = true := by
            simp [envTruthy, Bool.not_eq_true'] at ha ⊢
            simp [ha]
          simp [resolveGoogleProfileId, htr, hm]
      · intro hm
        by_cases ha : a.isEmpty = true
        · exfalso
          have ha' : a = "" := (String.isEmpty_iff a).mp ha
          subst ha'
          simp [List.find?, strContains_empty] at hm
        · have htr : envTruthy (some a) = true := by
            simp [envTruthy, Bool.not_eq_true'] at ha ⊢
            simp [ha]
          simp [resolveGoogleProfileId, htr, hm]

/-- Closed witness for `C10_account_resolution`: substring selection,
not-found error, and the default first profile. -/
theorem C10_account_resolution_witness :
    resolveGoogleProfileId ["google-workspace:alice@x.com",
      "google-workspace:bob@y.com"] (some "bob") =
      .ok "google-workspace:bob@y.com" ∧
    resolveGoogleProfileId ["google-workspace:alice@x.com",
      "google-workspace:bob@y.com"] none = .ok "google-workspace:alice@x.com" :=
  ⟨(C10_account_resolution ["google-workspace:alice@x.com",
      "google-workspace:bob@y.com"] (by decide) "bob").2.1
      "google-workspace:bob@y.com" (by decide),
   (C10_account_resolution ["google-workspace:alice@x.com",
      "google-workspace:bob@y.com"] (by decide) "bob").1⟩

end Clawdbot
